import Mathlib

set_option maxRecDepth 20000

/- Shallow embedding of the bankroll and analytics computation engine of the
   pro-bet-tracker repository.  The arithmetic of the source (JS numbers) is
   modelled with exact rationals; `Math.round x` is modelled exactly as
   `Int.floor (x + 1/2)`, which is its mathematical behaviour (round half
   toward positive infinity).  The embedded functions follow
   src/unnamed/part_006 (the calculations module revision that defines
   calculateBookBalances / calculateBankrollStats / calculateAdvancedStats /
   calculateBankrollHistory) and, for the sport classifier, the final revision
   in src/utils/calculations.ts (the one carrying the gazetteers and the
   college disambiguation logic). -/

namespace BetTracker

/-- Bet status enumeration from src/types.ts. -/
inductive BetStatus where
  | PENDING
  | WON
  | LOST
  | PUSH
  deriving DecidableEq, Repr, Inhabited

/-- Bet record from src/types.ts.  `sportsbook` is a plain string at runtime
(the TS `Sportsbook` enum values are strings), `odds` is a signed integer
(American odds), currency amounts are exact rationals, and `createdAt` is an
integer timestamp used only for recency ordering. -/
structure Bet where
  id : String
  date : String
  matchup : String
  sport : String
  sportsbook : String
  pick : String
  odds : ℤ
  wager : ℚ
  potentialProfit : ℚ
  status : BetStatus
  createdAt : ℤ
  tags : List String := []
  deriving DecidableEq, Repr, Inhabited

/-- BookDeposit record: cumulative net amount deposited at one sportsbook. -/
structure BookDeposit where
  sportsbook : String
  deposited : ℚ
  deriving DecidableEq, Repr, Inhabited

/-- Derived per-book balance row (src/types.ts `BookBalanceDisplay`). -/
structure BookBalanceDisplay where
  sportsbook : String
  deposited : ℚ
  currentBalance : ℚ
  deriving DecidableEq, Repr, Inhabited

/-- Derived aggregate snapshot (src/types.ts `BankrollState`). -/
structure BankrollState where
  startingBalance : ℚ
  currentBalance : ℚ
  totalWagered : ℚ
  totalWon : ℚ
  totalLost : ℚ
  totalBets : ℕ
  wins : ℕ
  losses : ℕ
  pushes : ℕ
  roi : ℚ
  flatROI : ℚ
  deriving DecidableEq, Repr, Inhabited

/-- Summary entry for the hottest/coldest sport display. -/
structure SportSummary where
  name : String
  profit : ℚ
  record : String
  deriving DecidableEq, Repr, Inhabited

/-- Per-sportsbook performance row of `AdvancedStats`. -/
structure BookPerf where
  name : String
  profit : ℚ
  wins : ℕ
  losses : ℕ
  winRate : ℚ
  deriving DecidableEq, Repr, Inhabited

/-- Per-pick/team performance row of `AdvancedStats`. -/
structure TeamPerf where
  name : String
  profit : ℚ
  wins : ℕ
  losses : ℕ
  deriving DecidableEq, Repr, Inhabited

/-- Derived analytics snapshot (src/types.ts `AdvancedStats`). -/
structure AdvancedStats where
  currentStreak : ℤ
  last10 : List BetStatus
  hottestSport : Option SportSummary
  coldestSport : Option SportSummary
  bookPerformance : List BookPerf
  teamPerformance : List TeamPerf
  deriving DecidableEq, Repr, Inhabited

/-- One point of the bankroll time series (src/types.ts `BankrollHistoryPoint`). -/
structure BankrollHistoryPoint where
  date : String
  balance : ℚ
  formattedDate : String
  deriving DecidableEq, Repr, Inhabited

/-- The `SPORTSBOOKS` constant from src/constants.ts:
`Object.values(Sportsbook)` of the enum in src/types.ts, in declaration order. -/
def SPORTSBOOKS : List String :=
  ["DraftKings", "FanDuel", "BetMGM", "Caesars", "Bet365", "PointsBet",
   "theScore Bet", "Fliff", "Fanatics", "PrizePicks", "Underdog Fantasy",
   "Drafters", "Betr", "Other"]

/-- Split a character list at every occurrence of a separator, modelling the
single-character JS `String.split` calls of the source ("".split gives [""],
adjacent separators give empty fields).  Structural recursion is used so the
kernel can evaluate it (core `String.splitOn` is well-founded recursion). -/
def splitOnCharAux (sep : Char) : List Char → List Char → List String
  | acc, [] => [String.mk acc.reverse]
  | acc, c :: rest =>
    if c == sep then String.mk acc.reverse :: splitOnCharAux sep [] rest
    else splitOnCharAux sep (c :: acc) rest

/-- JS `s.split(sep)` for a single-character separator. -/
def splitOnCharS (sep : Char) (s : String) : List String :=
  splitOnCharAux sep [] s.data

/-- JS `Array.prototype.join(' ')`. -/
def joinSpace : List String → String
  | [] => ""
  | s :: rest => rest.foldl (fun a t => a ++ " " ++ t) s

/-- Drop leading whitespace from a character list. -/
def dropLeadingWs : List Char → List Char
  | [] => []
  | c :: rest => if c.isWhitespace then dropLeadingWs rest else c :: rest

/-- JS `String.trim` (on the ASCII texts of this code base). -/
def trimStr (s : String) : String :=
  String.mk (dropLeadingWs (dropLeadingWs s.data.reverse).reverse)

/-- Decimal value of a digit list. -/
def digitsVal (l : List Char) : ℕ := l.foldl (fun a c => 10 * a + (c.toNat - 48)) 0

/-- Parse of an all-digit string (the behaviour of `Number`/`parseInt` on the
well-formed date components used by `formatDate`). -/
def strToNat? (s : String) : Option ℕ :=
  if s.data.isEmpty then none
  else if s.data.all Char.isDigit then some (digitsVal s.data) else none

/-- JS `Math.round`: round half toward positive infinity. -/
def jsRound (x : ℚ) : ℤ := ⌊x + 1/2⌋

/-- Rounding step of the source: `Math.round (profit * 100) / 100`. -/
def round2 (x : ℚ) : ℚ := (jsRound (x * 100) : ℚ) / 100

/-- `calculatePotentialProfit` from src/unnamed/part_006 (lines 9-21; the
function body is identical in every revision of the calculations module). -/
def calculatePotentialProfit (wager : ℚ) (odds : ℤ) : ℚ :=
  if odds = 0 then 0
  else
    let profit : ℚ :=
      if 0 < odds then wager * ((odds : ℚ) / 100)
      else wager * (100 / |(odds : ℚ)|)
    round2 profit

/-- Settlement effect of one bet on its book's running balance, as applied by
the `forEach` in `calculateBookBalances` (src/unnamed/part_006 lines 23-40):
WON adds the potential profit, LOST and PENDING subtract the wager, PUSH does
nothing. -/
def bookEffect (b : Bet) : ℚ :=
  match b.status with
  | .WON => b.potentialProfit
  | .LOST => -b.wager
  | .PENDING => -b.wager
  | .PUSH => 0

/-- One step of the `balanceChanges` record update: bump the entry keyed by the
bet's sportsbook string (creating it at 0 first, as the source does). -/
def applyBetToBalances (m : String → ℚ) (b : Bet) : String → ℚ :=
  fun sb => if sb = b.sportsbook then m sb + bookEffect b else m sb

/-- The `balanceChanges` record of `calculateBookBalances`, as a total function
from sportsbook string to accumulated effect (absent key = 0). -/
def balanceChanges (bets : List Bet) : String → ℚ :=
  bets.foldl applyBetToBalances (fun _ => 0)

/-- Deposited amount recorded for a book:
`deposits.find(d => d.sportsbook === sb)?.deposited ?? 0`. -/
def depositedFor (deposits : List BookDeposit) (sb : String) : ℚ :=
  ((deposits.find? (fun d => d.sportsbook == sb)).map (fun d => d.deposited)).getD 0

/-- `calculateBookBalances` from src/unnamed/part_006 (lines 23-53): fold the
bets into a per-book change record, then emit one row per known sportsbook. -/
def calculateBookBalances (bets : List Bet) (deposits : List BookDeposit) :
    List BookBalanceDisplay :=
  SPORTSBOOKS.map (fun sb =>
    let deposited := depositedFor deposits sb
    { sportsbook := sb
      deposited := deposited
      currentBalance := deposited + balanceChanges bets sb })

/-- Mutable locals of the `forEach` loop in `calculateBankrollStats`
(src/unnamed/part_006 lines 62-103). -/
structure StatsAcc where
  totalWagered : ℚ
  totalWon : ℚ
  totalLost : ℚ
  wins : ℕ
  losses : ℕ
  pushes : ℕ
  flatUnitsWon : ℚ
  flatBetsSettled : ℕ
  deriving DecidableEq, Repr, Inhabited

/-- Unit profit of a 1-unit stake at the given American odds, as computed
inline in the WON branch of `calculateBankrollStats`:
`bet.odds > 0 ? bet.odds / 100 : 100 / Math.abs(bet.odds)`. -/
def unitProfit (odds : ℤ) : ℚ :=
  if 0 < odds then (odds : ℚ) / 100 else 100 / |(odds : ℚ)|

/-- One iteration of the `forEach` loop in `calculateBankrollStats`. -/
def statsStep (acc : StatsAcc) (b : Bet) : StatsAcc :=
  match b.status with
  | .WON =>
      { acc with
        totalWon := acc.totalWon + b.potentialProfit
        totalWagered := acc.totalWagered + b.wager
        wins := acc.wins + 1
        flatUnitsWon := acc.flatUnitsWon + unitProfit b.odds
        flatBetsSettled := acc.flatBetsSettled + 1 }
  | .LOST =>
      { acc with
        totalLost := acc.totalLost + b.wager
        totalWagered := acc.totalWagered + b.wager
        losses := acc.losses + 1
        flatUnitsWon := acc.flatUnitsWon - 1
        flatBetsSettled := acc.flatBetsSettled + 1 }
  | .PUSH =>
      { acc with
        totalWagered := acc.totalWagered + b.wager
        pushes := acc.pushes + 1 }
  | .PENDING => acc

/-- Initial values of the loop locals. -/
def statsAcc0 : StatsAcc := ⟨0, 0, 0, 0, 0, 0, 0, 0⟩

/-- The separate `settledWagered` reduction of `calculateBankrollStats`
(src/unnamed/part_006 lines 105-107): sum of wagers over non-PENDING bets. -/
def settledWagered (bets : List Bet) : ℚ :=
  (((bets.filter (fun b => !(b.status == BetStatus.PENDING))).map
    (fun b => b.wager))).sum

/-- `calculateBankrollStats` from src/unnamed/part_006 (lines 55-126).  Takes
the deposit ledger and the bet list; derives totals, counts and the two ROI
figures, with explicit divide-by-zero guards. -/
def calculateBankrollStats (deposits : List BookDeposit) (bets : List Bet) :
    BankrollState :=
  let startingBalance := ((deposits.map (fun d => d.deposited))).sum
  let bookBalances := calculateBookBalances bets deposits
  let currentBalance := ((bookBalances.map (fun b => b.currentBalance))).sum
  let acc := bets.foldl statsStep statsAcc0
  let netProfit := acc.totalWon - acc.totalLost
  let roi := if 0 < settledWagered bets then netProfit / settledWagered bets * 100 else 0
  let flatROI :=
    if 0 < acc.flatBetsSettled then acc.flatUnitsWon / (acc.flatBetsSettled : ℚ) * 100
    else 0
  { startingBalance := startingBalance
    currentBalance := currentBalance
    totalWagered := acc.totalWagered
    totalWon := acc.totalWon
    totalLost := acc.totalLost
    totalBets := bets.length
    wins := acc.wins
    losses := acc.losses
    pushes := acc.pushes
    roi := roi
    flatROI := flatROI }

/-- Settled bets in the canonical recency order of `calculateAdvancedStats`
(src/unnamed/part_006 lines 128-131): drop PENDING, sort by `createdAt`
descending.  The source comparator `(a, b) => b.createdAt - a.createdAt` under
the (stable) JS sort is modelled by a stable insertion sort with the matching
total relation. -/
def sortedSettled (bets : List Bet) : List Bet :=
  List.insertionSort (fun a b : Bet => b.createdAt ≤ a.createdAt)
    (bets.filter (fun b => !(b.status == BetStatus.PENDING)))

/-- The streak `for ... of` loop body (src/unnamed/part_006 lines 141-147):
plus or minus 1 per bet whose status equals the leading status, PUSH is skipped,
any other status breaks out of the loop.  Only the `status` field is read, so
the loop is embedded over the status list. -/
def streakGo (first : BetStatus) : List BetStatus → ℤ
  | [] => 0
  | st :: rest =>
    if st = first then (if first = BetStatus.WON then 1 else -1) + streakGo first rest
    else if st = BetStatus.PUSH then streakGo first rest
    else 0

/-- Current streak over the recency-ordered settled statuses
(src/unnamed/part_006 lines 136-149): 0 when empty or when the leading settled
status is neither WON nor LOST (i.e. PUSH). -/
def currentStreakOf (statuses : List BetStatus) : ℤ :=
  match statuses with
  | [] => 0
  | first :: _ =>
    if first = BetStatus.WON ∨ first = BetStatus.LOST then streakGo first statuses
    else 0

/-- Per-group accumulator of the `aggByField` helper. -/
structure AggRec where
  profit : ℚ
  wins : ℕ
  losses : ℕ
  pushes : ℕ
  deriving DecidableEq, Repr, Inhabited

/-- Effect of one settled bet on its group record (src/unnamed/part_006 lines
168-176): WON adds profit and a win, LOST subtracts the wager and adds a loss,
anything else (PUSH among settled bets) adds a push. -/
def applyBetAgg (b : Bet) (r : AggRec) : AggRec :=
  match b.status with
  | .WON => { r with profit := r.profit + b.potentialProfit, wins := r.wins + 1 }
  | .LOST => { r with profit := r.profit - b.wager, losses := r.losses + 1 }
  | _ => { r with pushes := r.pushes + 1 }

/-- Update the association list that models the `map` record of `aggByField`:
JS records keep keys in insertion order, so a missing key is appended at the
end. -/
def aggUpsert : List (String × AggRec) → String → Bet → List (String × AggRec)
  | [], k, b => [(k, applyBetAgg b ⟨0, 0, 0, 0⟩)]
  | (k', r) :: rest, k, b =>
    if k' = k then (k', applyBetAgg b r) :: rest else (k', r) :: aggUpsert rest k b

/-- The `aggByField` fold over the settled bets, generic in the key function. -/
def aggByKey (keyOf : Bet → String) (l : List Bet) : List (String × AggRec) :=
  l.foldl (fun m b => aggUpsert m (keyOf b) b) []

/-- JS `bet[field] || 'Unknown'`: the empty string is falsy. -/
def orUnknown (s : String) : String := if s = "" then "Unknown" else s

/-- Key for the sport grouping. -/
def sportKey (b : Bet) : String := orUnknown b.sport

/-- Key for the sportsbook grouping. -/
def bookKey (b : Bet) : String := orUnknown b.sportsbook

/-- The `.replace(/[-+0-9.]/g, '')` step of the pick-key derivation. -/
def stripPickChars (s : String) : String :=
  String.mk (s.data.filter (fun c => !(c == '-' || c == '+' || c == '.' || c.isDigit)))

/-- Pick-derived grouping key (src/unnamed/part_006 lines 157-162): first two
whitespace-separated tokens, joined, stripped of sign/digit/dot characters and
trimmed; fall back to the raw pick when shorter than 3 characters. -/
def pickKeyOf (b : Bet) : String :=
  let key := trimStr (stripPickChars (joinSpace ((splitOnCharS ' ' b.pick).take 2)))
  if key.length < 3 then b.pick else key

/-- `calculateAdvancedStats` from src/unnamed/part_006 (lines 128-225). -/
def calculateAdvancedStats (bets : List Bet) : AdvancedStats :=
  let settledBets := sortedSettled bets
  let last10 := (settledBets.take 10).map (fun b => b.status)
  let streak := currentStreakOf (settledBets.map (fun b => b.status))
  let sportsArr := List.insertionSort (fun a b : SportSummary => b.profit ≤ a.profit)
    ((aggByKey sportKey settledBets).map (fun e =>
      { name := e.1
        profit := e.2.profit
        record := toString e.2.wins ++ "-" ++ toString e.2.losses ++ "-" ++
          toString e.2.pushes }))
  let hottestSport := match sportsArr with
    | [] => none
    | x :: _ => if 0 < x.profit then some x else none
  let coldestSport := match sportsArr.getLast? with
    | none => none
    | some x => if x.profit < 0 then some x else none
  let bookPerformance := List.insertionSort (fun a b : BookPerf => b.profit ≤ a.profit)
    ((aggByKey bookKey settledBets).map (fun e =>
      { name := e.1
        profit := e.2.profit
        wins := e.2.wins
        losses := e.2.losses
        winRate :=
          if 0 < e.2.wins + e.2.losses
          then (e.2.wins : ℚ) / ((e.2.wins : ℚ) + (e.2.losses : ℚ)) * 100
          else 0 }))
  let teamPerformance := (List.insertionSort (fun a b : TeamPerf => b.profit ≤ a.profit)
    (((aggByKey pickKeyOf settledBets).map (fun e =>
      ({ name := e.1, profit := e.2.profit, wins := e.2.wins,
         losses := e.2.losses } : TeamPerf))).filter
      (fun t => 0 < t.wins + t.losses))).take 5
  { currentStreak := streak
    last10 := last10
    hottestSport := hottestSport
    coldestSport := coldestSport
    bookPerformance := bookPerformance
    teamPerformance := teamPerformance }

/-- Settled filter of `calculateBankrollHistory` (src/unnamed/part_006 lines
229-231): keep WON, LOST and PUSH bets. -/
def settledFilter (bets : List Bet) : List Bet :=
  bets.filter (fun b =>
    b.status == BetStatus.WON || b.status == BetStatus.LOST ||
      b.status == BetStatus.PUSH)

/-- Per-bet contribution to its date bucket (src/unnamed/part_006 lines
237-243): WON adds the potential profit, LOST subtracts the wager, PUSH adds
nothing. -/
def histEffect (b : Bet) : ℚ :=
  match b.status with
  | .WON => b.potentialProfit
  | .LOST => -b.wager
  | _ => 0

/-- The `dailyPnL` record as a total function of the date string.  The source
iterates the date-sorted settled bets; per-date sums do not depend on that
order in exact arithmetic, and the stable date sort does not reorder bets that
share a date, so the bucket value is the sum over the settled bets with that
date. -/
def dailyPnL (bets : List Bet) (d : String) : ℚ :=
  (((settledFilter bets).filter (fun b => b.date == d)).map histEffect).sum

/-- Key set of the `dailyPnL` record: the distinct dates of settled bets
(`Object.keys`; order is irrelevant because the source sorts the keys next). -/
def settledDates (bets : List Bet) : List String :=
  ((settledFilter bets).map (fun b => b.date)).dedup

/-- The `uniqueDates` array: `Object.keys(dailyPnL).sort()`, i.e. the distinct
settled dates in ascending lexicographic order. -/
def uniqueDates (bets : List Bet) : List String :=
  List.insertionSort (fun a b : String => a ≤ b) (settledDates bets)

/-- Three-letter month names produced by
`toLocaleDateString('en-US', { month: 'short', ... })`. -/
def monthShort : ℕ → String
  | 1 => "Jan"
  | 2 => "Feb"
  | 3 => "Mar"
  | 4 => "Apr"
  | 5 => "May"
  | 6 => "Jun"
  | 7 => "Jul"
  | 8 => "Aug"
  | 9 => "Sep"
  | 10 => "Oct"
  | 11 => "Nov"
  | 12 => "Dec"
  | _ => ""

/-- `formatDate` from src/unnamed/part_006 (lines 283-293): empty input yields
the empty string; otherwise split the YYYY-MM-DD string and format as
"MMM D, YYYY".  The JS `Date` rollover of out-of-range components is not
modelled (no claim depends on it); unparsable input maps to the JS rendering
"Invalid Date". -/
def formatDate (dateStr : String) : String :=
  if dateStr = "" then ""
  else
    let parts := splitOnCharS '-' dateStr
    match ((parts.get? 0).bind strToNat?), ((parts.get? 1).bind strToNat?),
        ((parts.get? 2).bind strToNat?) with
    | some y, some m, some d =>
        if 1 ≤ m ∧ m ≤ 12 then monthShort m ++ " " ++ toString d ++ ", " ++ toString y
        else "Invalid Date"
    | _, _, _ => "Invalid Date"

/-- `formatDate(date).split(',')[0]` — the "Oct 25" label of a history point. -/
def histFmt (d : String) : String := (splitOnCharS ',' (formatDate d)).headD ""

/-- The `uniqueDates.forEach` loop of `calculateBankrollHistory`: walk the
sorted dates, keep a running balance, emit one point per date. -/
def histScan (bets : List Bet) : ℚ → List String → List BankrollHistoryPoint
  | _, [] => []
  | bal, d :: ds =>
    { date := d, balance := bal + dailyPnL bets d, formattedDate := histFmt d } ::
      histScan bets (bal + dailyPnL bets d) ds

/-- `calculateBankrollHistory` from src/unnamed/part_006 (lines 227-273).  The
"Start" point is pushed before the loop, so the trailing
`if (history.length === 0)` branch of the source is dead code and drops out of
the embedding. -/
def calculateBankrollHistory (startingBalance : ℚ) (bets : List Bet) :
    List BankrollHistoryPoint :=
  { date := "Start", balance := startingBalance, formattedDate := "Start" } ::
    histScan bets startingBalance (uniqueDates bets)

/- Sport classifier (src/utils/calculations.ts, final revision, lines 394-520)
   and its gazetteer data (lines 215-392 of the same revision). -/

/-- Gazetteer `NFL_TEAMS` from src/utils/calculations.ts (final revision). -/
def NFL_TEAMS : List String := [
  "Arizona Cardinals", "Atlanta Falcons", "Baltimore Ravens", "Buffalo Bills", "Carolina Panthers", "Chicago Bears",
  "Cincinnati Bengals", "Cleveland Browns", "Dallas Cowboys", "Denver Broncos", "Detroit Lions", "Green Bay Packers",
  "Houston Texans", "Indianapolis Colts", "Jacksonville Jaguars", "Kansas City Chiefs", "Las Vegas Raiders", "Los Angeles Chargers",
  "Los Angeles Rams", "Miami Dolphins", "Minnesota Vikings", "New England Patriots", "New Orleans Saints", "New York Giants",
  "New York Jets", "Philadelphia Eagles", "Pittsburgh Steelers", "San Francisco 49ers", "Seattle Seahawks", "Tampa Bay Buccaneers",
  "Tennessee Titans", "Washington Commanders"]

/-- Gazetteer `NBA_TEAMS` from src/utils/calculations.ts (final revision). -/
def NBA_TEAMS : List String := [
  "Atlanta Hawks", "Boston Celtics", "Brooklyn Nets", "Charlotte Hornets", "Chicago Bulls", "Cleveland Cavaliers",
  "Dallas Mavericks", "Denver Nuggets", "Detroit Pistons", "Golden State Warriors", "Houston Rockets", "Indiana Pacers",
  "Los Angeles Clippers", "Los Angeles Lakers", "Memphis Grizzlies", "Miami Heat", "Milwaukee Bucks", "Minnesota Timberwolves",
  "New Orleans Pelicans", "New York Knicks", "Oklahoma City Thunder", "Orlando Magic", "Philadelphia 76ers", "Phoenix Suns",
  "Portland Trail Blazers", "Sacramento Kings", "San Antonio Spurs", "Toronto Raptors", "Utah Jazz", "Washington Wizards"]

/-- Gazetteer `MLB_TEAMS` from src/utils/calculations.ts (final revision). -/
def MLB_TEAMS : List String := [
  "Arizona Diamondbacks", "Atlanta Braves", "Baltimore Orioles", "Boston Red Sox", "Chicago Cubs", "Chicago White Sox",
  "Cincinnati Reds", "Cleveland Guardians", "Colorado Rockies", "Detroit Tigers", "Houston Astros", "Kansas City Royals",
  "Los Angeles Angels", "Los Angeles Dodgers", "Miami Marlins", "Milwaukee Brewers", "Minnesota Twins", "New York Mets",
  "New York Yankees", "Athletics", "Philadelphia Phillies", "Pittsburgh Pirates", "San Diego Padres", "San Francisco Giants",
  "Seattle Mariners", "St. Louis Cardinals", "Tampa Bay Rays", "Texas Rangers", "Toronto Blue Jays", "Washington Nationals"]

/-- Gazetteer `NHL_TEAMS` from src/utils/calculations.ts (final revision). -/
def NHL_TEAMS : List String := [
  "Anaheim Ducks", "Boston Bruins", "Buffalo Sabres", "Calgary Flames", "Carolina Hurricanes", "Chicago Blackhawks",
  "Colorado Avalanche", "Columbus Blue Jackets", "Dallas Stars", "Detroit Red Wings", "Edmonton Oilers", "Florida Panthers",
  "Los Angeles Kings", "Minnesota Wild", "Montreal Canadiens", "Nashville Predators", "New Jersey Devils", "New York Islanders",
  "New York Rangers", "Ottawa Senators", "Philadelphia Flyers", "Pittsburgh Penguins", "San Jose Sharks", "Seattle Kraken",
  "St. Louis Blues", "Tampa Bay Lightning", "Toronto Maple Leafs", "Utah Hockey Club", "Vancouver Canucks", "Vegas Golden Knights",
  "Washington Capitals", "Winnipeg Jets"]

/-- Gazetteer `NCAAF_TEAMS` from src/utils/calculations.ts (final revision). -/
def NCAAF_TEAMS : List String := [
  "Army West Point", "Charlotte", "East Carolina", "Florida Atlantic", "Memphis", "Navy",
  "North Texas", "Rice", "South Florida", "Temple", "Tulane", "Tulsa",
  "UAB", "UTSA", "Boston College", "California", "Clemson", "Duke",
  "Florida State", "Georgia Tech", "Louisville", "Miami (FL)", "NC State", "North Carolina",
  "Pittsburgh", "SMU", "Stanford", "Syracuse", "Virginia", "Virginia Tech",
  "Wake Forest", "Arizona", "Arizona State", "Baylor", "BYU", "Cincinnati",
  "Colorado", "Houston", "Iowa State", "Kansas", "Kansas State", "Oklahoma State",
  "TCU", "Texas Tech", "UCF", "Utah", "West Virginia", "Illinois",
  "Indiana", "Iowa", "Maryland", "Michigan", "Michigan State", "Minnesota",
  "Nebraska", "Northwestern", "Ohio State", "Oregon", "Penn State", "Purdue",
  "Rutgers", "UCLA", "USC", "Washington", "Wisconsin", "Delaware",
  "FIU", "Jacksonville State", "Kennesaw State", "Liberty", "Louisiana Tech", "Middle Tennessee",
  "Missouri State", "New Mexico State", "Sam Houston", "UTEP", "Western Kentucky", "Notre Dame",
  "UConn", "Akron", "Ball State", "Bowling Green", "Buffalo", "Central Michigan",
  "Eastern Michigan", "Kent State", "Miami (OH)", "Northern Illinois", "Ohio", "Toledo",
  "UMass", "Western Michigan", "Air Force", "Boise State", "Colorado State", "Fresno State",
  "Hawaii", "Nevada", "New Mexico", "San Diego State", "San Jose State", "UNLV",
  "Utah State", "Wyoming", "Oregon State", "Washington State", "Alabama", "Arkansas",
  "Auburn", "Florida", "Georgia", "Kentucky", "LSU", "Mississippi State",
  "Missouri", "Oklahoma", "Ole Miss", "South Carolina", "Tennessee", "Texas",
  "Texas A&M", "Vanderbilt", "Appalachian State", "Arkansas State", "Coastal Carolina", "Georgia Southern",
  "Georgia State", "James Madison", "Louisiana", "Marshall", "Old Dominion", "South Alabama",
  "Southern Miss", "Texas State", "Troy", "UL Monroe", "Cal Poly", "Eastern Washington",
  "Idaho", "Idaho State", "Montana", "Montana State", "Northern Arizona", "Northern Colorado",
  "Portland State", "Sacramento State", "UC Davis", "Weber State", "Charleston Southern", "Eastern Illinois",
  "Gardner-Webb", "Lindenwood", "Southeast Missouri State", "Tennessee State", "Tennessee Tech", "UT Martin",
  "Western Illinois", "Albany", "Bryant", "Campbell", "Elon", "Hampton",
  "Maine", "Monmouth", "New Hampshire", "North Carolina A&T", "Rhode Island", "Richmond",
  "Stony Brook", "Towson", "Villanova", "William & Mary", "Merrimack", "Sacred Heart",
  "Brown", "Columbia", "Cornell", "Dartmouth", "Harvard", "Penn",
  "Princeton", "Yale", "Delaware State", "Howard", "Morgan State", "Norfolk State",
  "North Carolina Central", "South Carolina State", "Illinois State", "Indiana State", "Murray State", "North Dakota",
  "North Dakota State", "Northern Iowa", "South Dakota", "South Dakota State", "Southern Illinois", "Youngstown State",
  "Central Connecticut", "Duquesne", "LIU", "Mercyhurst", "Robert Morris", "Saint Francis (PA)",
  "Stonehill", "Wagner", "Bucknell", "Colgate", "Fordham", "Georgetown",
  "Holy Cross", "Lafayette", "Lehigh", "Butler", "Davidson", "Dayton",
  "Drake", "Marist", "Morehead State", "Presbyterian", "San Diego", "St. Thomas (MN)",
  "Stetson", "Valparaiso", "Chattanooga", "The Citadel", "ETSU", "Furman",
  "Mercer", "Samford", "VMI", "Western Carolina", "Wofford", "Houston Christian",
  "Incarnate Word", "Lamar", "McNeese", "Nicholls", "Northwestern State", "Southeastern Louisiana",
  "Stephen F. Austin", "Texas A&M-Commerce", "UTRGV", "Alabama A&M", "Alabama State", "Alcorn State",
  "Arkansas-Pine Bluff", "Bethune-Cookman", "Florida A&M", "Grambling State", "Jackson State", "Mississippi Valley State",
  "Prairie View A&M", "Southern", "Texas Southern", "Abilene Christian", "Austin Peay", "Central Arkansas",
  "Eastern Kentucky", "North Alabama", "Southern Utah", "Tarleton State", "Utah Tech", "West Georgia"]

/-- Gazetteer `NCAAB_TEAMS` from src/utils/calculations.ts (final revision). -/
def NCAAB_TEAMS : List String := [
  "Albany", "Binghamton", "Bryant", "Maine", "New Hampshire", "NJIT",
  "UMass Lowell", "UMBC", "Vermont", "Charlotte", "East Carolina", "Florida Atlantic",
  "Memphis", "North Texas", "Rice", "South Florida", "Temple", "Tulane",
  "Tulsa", "UAB", "UTSA", "Wichita State", "Davidson", "Dayton",
  "Duquesne", "Fordham", "George Mason", "George Washington", "La Salle", "Loyola Chicago",
  "Rhode Island", "Richmond", "Saint Joseph\x27s", "Saint Louis", "St. Bonaventure", "UMass",
  "VCU", "Boston College", "California", "Clemson", "Duke", "Florida State",
  "Georgia Tech", "Louisville", "Miami (FL)", "NC State", "North Carolina", "Notre Dame",
  "Pittsburgh", "SMU", "Stanford", "Syracuse", "Virginia", "Virginia Tech",
  "Wake Forest", "Austin Peay", "Bellarmine", "Central Arkansas", "Eastern Kentucky", "Florida Gulf Coast",
  "Jacksonville", "Jacksonville State", "Lipscomb", "North Alabama", "North Florida", "Queens (NC)",
  "Stetson", "West Georgia", "Arizona", "Arizona State", "Baylor", "BYU",
  "Cincinnati", "Colorado", "Houston", "Iowa State", "Kansas", "Kansas State",
  "Oklahoma State", "TCU", "Texas Tech", "UCF", "Utah", "West Virginia",
  "Butler", "Creighton", "DePaul", "Georgetown", "Marquette", "Providence",
  "Seton Hall", "St. John\x27s", "UConn", "Villanova", "Xavier", "Eastern Washington",
  "Idaho", "Idaho State", "Montana", "Montana State", "Northern Arizona", "Northern Colorado",
  "Portland State", "Sacramento State", "Weber State", "Charleston Southern", "Gardner-Webb", "High Point",
  "Longwood", "Presbyterian", "Radford", "UNC Asheville", "USC Upstate", "Winthrop",
  "Illinois", "Indiana", "Iowa", "Maryland", "Michigan", "Michigan State",
  "Minnesota", "Nebraska", "Northwestern", "Ohio State", "Oregon", "Penn State",
  "Purdue", "Rutgers", "UCLA", "USC", "Washington", "Wisconsin",
  "Cal Poly", "Cal State Bakersfield", "Cal State Fullerton", "CSU Northridge", "Hawaii", "Long Beach State",
  "UC Davis", "UC Irvine", "UC Riverside", "UC San Diego", "UC Santa Barbara", "Campbell",
  "Charleston", "Delaware", "Drexel", "Elon", "Hampton", "Hofstra",
  "Monmouth", "North Carolina A&T", "Northeastern", "Stony Brook", "Towson", "UNC Wilmington",
  "William & Mary", "FIU", "Jacksonville State", "Kennesaw State", "Liberty", "Louisiana Tech",
  "Middle Tennessee", "Missouri State", "New Mexico State", "Sam Houston", "UTEP", "Western Kentucky",
  "Cleveland State", "Detroit Mercy", "Green Bay", "IU Indianapolis", "Milwaukee", "Northern Kentucky",
  "Oakland", "Purdue Fort Wayne", "Robert Morris", "Wright State", "Youngstown State", "Chicago State",
  "Brown", "Columbia", "Cornell", "Dartmouth", "Harvard", "Penn",
  "Princeton", "Yale", "Canisius", "Fairfield", "Iona", "Manhattan",
  "Marist", "Merrimack", "Mount St. Mary\x27s", "Niagara", "Quinnipiac", "Rider",
  "Sacred Heart", "Saint Peter\x27s", "Siena", "Akron", "Ball State", "Bowling Green",
  "Buffalo", "Central Michigan", "Eastern Michigan", "Kent State", "Miami (OH)", "Northern Illinois",
  "Ohio", "Toledo", "Western Michigan", "Coppin State", "Delaware State", "Howard",
  "Maryland Eastern Shore", "Morgan State", "Norfolk State", "North Carolina Central", "South Carolina State", "Belmont",
  "Bradley", "Drake", "Evansville", "Illinois State", "Indiana State", "Murray State",
  "Northern Iowa", "Southern Illinois", "UIC", "Valparaiso", "Air Force", "Boise State",
  "Colorado State", "Fresno State", "Nevada", "New Mexico", "San Diego State", "San Jose State",
  "UNLV", "Utah State", "Wyoming", "Central Connecticut", "Fairleigh Dickinson", "Le Moyne",
  "LIU", "Mercyhurst", "Saint Francis (PA)", "Stonehill", "Wagner", "Eastern Illinois",
  "Lindenwood", "Little Rock", "Morehead State", "SIU Edwardsville", "Southeast Missouri State", "Southern Indiana",
  "Tennessee State", "Tennessee Tech", "UT Martin", "Western Illinois", "Oregon State", "Washington State",
  "American", "Army West Point", "Boston University", "Bucknell", "Colgate", "Holy Cross",
  "Lafayette", "Lehigh", "Loyola Maryland", "Navy", "Alabama", "Arkansas",
  "Auburn", "Florida", "Georgia", "Kentucky", "LSU", "Mississippi State",
  "Missouri", "Oklahoma", "Ole Miss", "South Carolina", "Tennessee", "Texas",
  "Texas A&M", "Vanderbilt", "Chattanooga", "The Citadel", "ETSU", "Furman",
  "Mercer", "Samford", "UNC Greensboro", "VMI", "Western Carolina", "Wofford",
  "Houston Christian", "Incarnate Word", "Lamar", "McNeese", "New Orleans", "Nicholls",
  "Northwestern State", "Southeastern Louisiana", "Stephen F. Austin", "Texas A&M-Commerce", "Texas A&M-Corpus Christi", "UTRGV",
  "Denver", "Kansas City", "North Dakota", "North Dakota State", "Omaha", "Oral Roberts",
  "South Dakota", "South Dakota State", "St. Thomas (MN)", "Appalachian State", "Arkansas State", "Coastal Carolina",
  "Georgia Southern", "Georgia State", "James Madison", "Louisiana", "Marshall", "Old Dominion",
  "South Alabama", "Southern Miss", "Texas State", "Troy", "UL Monroe", "Alabama A&M",
  "Alabama State", "Alcorn State", "Arkansas-Pine Bluff", "Bethune-Cookman", "Florida A&M", "Grambling State",
  "Jackson State", "Mississippi Valley State", "Prairie View A&M", "Southern", "Texas Southern", "Abilene Christian",
  "California Baptist", "Grand Canyon", "Seattle U", "Southern Utah", "Tarleton State", "Utah Tech",
  "Utah Valley", "UT Arlington", "Gonzaga", "Loyola Marymount", "Pacific", "Pepperdine",
  "Portland", "Saint Mary\x27s", "San Diego", "San Francisco", "Santa Clara"]

/-- ASCII uppercase of a string, modelling JS `toUpperCase` on the ASCII team
names and bet texts of this code base. -/
def upperStr (s : String) : String := String.mk (s.data.map Char.toUpper)

/-- Character list of the uppercased classifier text. -/
def upperChars (s : String) : List Char := s.data.map Char.toUpper

/-- Boolean prefix test on character lists. -/
def isPrefixB : List Char → List Char → Bool
  | [], _ => true
  | _ :: _, [] => false
  | a :: ps, b :: ls => a == b && isPrefixB ps ls

/-- Boolean substring test on character lists, modelling JS
`text.includes(pat)` (the empty pattern is always contained). -/
def hasSubstr (pat : List Char) : List Char → Bool
  | [] => pat.isEmpty
  | l@(_ :: rest) => isPrefixB pat l || hasSubstr pat rest

/-- `text.includes(pat)` for a pattern written literally in the source
(the source writes these patterns already in uppercase). -/
def textHas (text : List Char) (pat : String) : Bool := hasSubstr pat.data text

/-- Trailing "nickname" token of an uppercased team name:
`upperTeam.split(' ')` and take the last part. -/
def nicknameOf (team : String) : String := (splitOnCharS ' ' (upperStr team)).getLastD ""

/-- `getMatchedTeams` from the classifier: a team matches on its full
uppercased name, or on its nickname when that is longer than 3 characters.
The source's special-case list of ambiguous nicknames has two identical
branches (both just test `text.includes(nickname)`), so it reduces to the
plain nickname test; the loop-and-push structure is a filter. -/
def getMatchedTeams (text : List Char) (teams : List String) : List String :=
  teams.filter (fun team =>
    let upperTeam := upperStr team
    if hasSubstr upperTeam.data text then true
    else
      let nickname := nicknameOf team
      if nickname.length ≤ 3 then false
      else hasSubstr nickname.data text)

/-- `checkProList` from the classifier: full-name match, else a nickname match
with contextual overrides for the ambiguous pro nicknames.  The early-return
loop is `List.any`. -/
def checkProList (text : List Char) (teams : List String) : Bool :=
  teams.any (fun team =>
    let upperTeam := upperStr team
    if hasSubstr upperTeam.data text then true
    else
      let nickname := nicknameOf team
      if nickname == "GIANTS" then textHas text "NY" || textHas text "NEW YORK"
      else if nickname == "JETS" then textHas text "NY" || textHas text "NEW YORK"
      else if nickname == "RANGERS" then textHas text "TEXAS"
      else if nickname == "KINGS" then textHas text "SACRAMENTO"
      else if nickname == "CARDINALS" then textHas text "ARIZONA"
      else if nickname == "PANTHERS" then textHas text "CAROLINA"
      else textHas text nickname)

/-- Explicit college-football keywords of step B1 of the classifier. -/
def hasFootballKeyword (text : List Char) : Bool :=
  textHas text "CFB" || textHas text "BOWL" || textHas text "TOUCHDOWN"

/-- Explicit college-basketball keywords of step B1 of the classifier. -/
def hasBasketballKeyword (text : List Char) : Bool :=
  textHas text "CBB" || textHas text "MARCH MADNESS" ||
    textHas text "TOURNAMENT" || textHas text "HALF"

/-- Whitespace characters for the regex `\s` class (the common subset; every
input occurring in this development uses plain spaces). -/
def jsWhitespace (c : Char) : Bool := c == ' ' || c == '\t' || c == '\n' || c == '\r'

/-- Attempt to match the regex `[OU]\s?(\d{2,3})` at the head of the list.
Nothing follows the capture group in the pattern, so greedy matching captures
`min 3` of the digit run and needs at least 2 digits; the greedy optional
whitespace cannot interfere (a consumed whitespace is not a digit). -/
def totalHere : List Char → Option Nat
  | [] => none
  | c :: rest =>
    if c == 'O' || c == 'U' then
      let body := match rest with
        | w :: r2 => if jsWhitespace w then r2 else rest
        | [] => rest
      let ds := (body.takeWhile Char.isDigit).take 3
      if 2 ≤ ds.length then some (digitsVal ds) else none
    else none

/-- Leftmost match of `text.match(/[OU]\s?(\d{2,3})/)`, returning the parsed
captured total. -/
def parseTotal : List Char → Option Nat
  | [] => none
  | c :: rest =>
    match totalHere (c :: rest) with
    | some v => some v
    | none => parseTotal rest

/-- JS `parseInt` on the nonnegative numeric tokens occurring here: the value
of the leading digit run, none when there is none (NaN). -/
def parseIntPrefix (s : String) : Option Nat :=
  let ds := s.data.takeWhile Char.isDigit
  if ds.isEmpty then none else some (digitsVal ds)

/-- Month-seasonality fallback of the college branch (step B3 plus the final
default): Aug-Oct gives NCAAF, Feb-Apr gives NCAAB, January gives NCAAB, and
everything else (missing or falsy date, unparsable month, Nov/Dec) falls
through to the final "NCAAB" default. -/
def collegeMonthFallback (dateOpt : Option String) : String :=
  match dateOpt with
  | some ds =>
    if ds == "" then "NCAAB"
    else
      match parseIntPrefix (((splitOnCharS '-' ds).get? 1).getD "") with
      | some m =>
        if m == 8 || m == 9 || m == 10 then "NCAAF"
        else if m == 2 || m == 3 || m == 4 then "NCAAB"
        else if m == 1 then "NCAAB"
        else "NCAAB"
      | none => "NCAAB"
  | none => "NCAAB"

/-- The fields of `Partial<Bet>` that `inferSportFromBet` reads. -/
structure BetDraft where
  matchup : Option String
  pick : Option String
  date : Option String
  deriving DecidableEq, Repr, Inhabited

/-- Classifier text: uppercased `matchup + " " + pick` with missing (or other
falsy) fields replaced by the empty string. -/
def draftText (b : BetDraft) : List Char :=
  upperChars ((b.matchup.getD "") ++ " " ++ (b.pick.getD ""))

/-- `inferSportFromBet` from src/utils/calculations.ts (final revision, lines
394-520): professional gazetteers with nickname overrides, college
disambiguation (exclusive team, keywords, parsed total, month seasonality,
basketball default), then generic keyword sports, then "Other". -/
def inferSportFromBet (b : BetDraft) : String :=
  let text := draftText b
  if checkProList text NFL_TEAMS then "NFL"
  else if checkProList text NBA_TEAMS then "NBA"
  else
    let hasMLB := checkProList text MLB_TEAMS
    let hasNHL := checkProList text NHL_TEAMS
    if hasMLB && hasNHL && textHas text "GIANTS" then "MLB"
    else if hasMLB && hasNHL && textHas text "RANGERS" then
      if textHas text "TEXAS" then "MLB" else "NHL"
    else if hasMLB && hasNHL && textHas text "KINGS" then "NHL"
    else if hasMLB && hasNHL && textHas text "PANTHERS" then "NHL"
    else if hasMLB then "MLB"
    else if hasNHL then "NHL"
    else
      let matchedNCAAF := getMatchedTeams text NCAAF_TEAMS
      let matchedNCAAB := getMatchedTeams text NCAAB_TEAMS
      if 0 < matchedNCAAF.length || 0 < matchedNCAAB.length then
        let exclusiveCBB := matchedNCAAB.filter (fun t => !(NCAAF_TEAMS.contains t))
        if 0 < exclusiveCBB.length then "NCAAB"
        else
          let exclusiveCFB := matchedNCAAF.filter (fun t => !(NCAAB_TEAMS.contains t))
          if 0 < exclusiveCFB.length then "NCAAF"
          else if hasFootballKeyword text then "NCAAF"
          else if hasBasketballKeyword text then "NCAAB"
          else
            match parseTotal text with
            | some v =>
              if 110 < v then "NCAAB"
              else if v < 80 then "NCAAF"
              else collegeMonthFallback b.date
            | none => collegeMonthFallback b.date
      else if textHas text "UFC" || textHas text "MMA" then "UFC"
      else if textHas text "TENNIS" || textHas text "ATP" || textHas text "WTA" ||
        textHas text "DJOKOVIC" || textHas text "ALCARAZ" || textHas text "SINNER" then
        "Tennis"
      else if textHas text "GOLF" || textHas text "PGA" || textHas text "LIV" then "Golf"
      else if textHas text "SOCCER" || textHas text "EPL" || textHas text "MLS" ||
        textHas text "PREMIER LEAGUE" || textHas text "CHAMPIONS LEAGUE" then "Soccer"
      else if textHas text "F1" || textHas text "FORMULA 1" || textHas text "VERSTAPPEN" then
        "F1"
      else "Other"

/- Specification-side definitions.  These are written from the wording of the
   spec (not from the source) and are compared with the embedded source
   functions in the theorems below. -/

/-- Streak description from the spec: 0 on an empty settled history or when the
most recent settled bet is a PUSH; otherwise plus 1 per WON (resp. minus 1 per
LOST) matching the leading outcome within the longest prefix consisting only of
the leading outcome and PUSHes (a mid-scan PUSH is skipped without terminating
the scan; the first opposite outcome terminates it). -/
def streakSpec (l : List BetStatus) : ℤ :=
  match l with
  | [] => 0
  | first :: _ =>
    if first = BetStatus.WON then
      ((l.takeWhile (fun st => st == BetStatus.WON || st == BetStatus.PUSH)).count
        BetStatus.WON : ℤ)
    else if first = BetStatus.LOST then
      -((l.takeWhile (fun st => st == BetStatus.LOST || st == BetStatus.PUSH)).count
        BetStatus.LOST : ℤ)
    else 0

/-- Unit contribution of one settled bet to the flat ROI, per the spec: a WON
bet contributes odds/100 for positive odds and 100/|odds| for negative odds, a
LOST bet contributes exactly -1, PUSH contributes nothing. -/
def specUnitContrib (b : Bet) : ℚ :=
  match b.status with
  | .WON => if 0 < b.odds then (b.odds : ℚ) / 100 else 100 / |(b.odds : ℚ)|
  | .LOST => -1
  | _ => 0

/-- Month rule of the spec for ambiguous dual-sport college bets: Aug-Oct gives
NCAAF, Feb-Apr gives NCAAB, January gives NCAAB, November/December make no
decision, and an undecided bet defaults to NCAAB. -/
def specMonthDecision : Option ℕ → String
  | some m =>
    if m = 8 ∨ m = 9 ∨ m = 10 then "NCAAF"
    else if m = 2 ∨ m = 3 ∨ m = 4 then "NCAAB"
    else if m = 1 then "NCAAB"
    else "NCAAB"
  | none => "NCAAB"

/-- Total/month rule of the spec for ambiguous dual-sport college bets: a
parsed over/under total above 110 gives NCAAB, below 80 gives NCAAF, the 80-110
band makes no decision and falls to the month rule, as does a missing total. -/
def specCollegeDualDecision : Option ℕ → Option ℕ → String
  | some v, monthOpt =>
    if 110 < v then "NCAAB"
    else if v < 80 then "NCAAF"
    else specMonthDecision monthOpt
  | none, monthOpt => specMonthDecision monthOpt

/-- Event month read by the classifier's seasonality step: second dash-separated
component of the date, when a date is present, non-empty and numeric. -/
def draftMonth (b : BetDraft) : Option ℕ :=
  match b.date with
  | some ds =>
    if ds == "" then none
    else parseIntPrefix (((splitOnCharS '-' ds).get? 1).getD "")
  | none => none

/- Concrete inputs used by the example parts of the theorems and by the
   witnesses. -/

/-- History example, first WON bet: profit 50 on 2024-01-02. -/
def exHistBetA : Bet :=
  { id := "h1", date := "2024-01-02", matchup := "A vs B", sport := "NBA",
    sportsbook := "DraftKings", pick := "A -3", odds := -110, wager := 55,
    potentialProfit := 50, status := BetStatus.WON, createdAt := 1 }

/-- History example, second WON bet: profit 30 on the same date. -/
def exHistBetB : Bet :=
  { id := "h2", date := "2024-01-02", matchup := "C vs D", sport := "NBA",
    sportsbook := "FanDuel", pick := "C +4", odds := -110, wager := 33,
    potentialProfit := 30, status := BetStatus.WON, createdAt := 2 }

/-- Streak example: settled results [WON, WON, LOST, WON] most-recent-first. -/
def exStreakBets : List Bet :=
  [{ id := "s1", date := "2024-01-04", matchup := "A vs B", sport := "NBA",
     sportsbook := "DraftKings", pick := "A -1", odds := -110, wager := 10,
     potentialProfit := 9.09, status := BetStatus.WON, createdAt := 4 },
   { id := "s2", date := "2024-01-03", matchup := "A vs B", sport := "NBA",
     sportsbook := "DraftKings", pick := "A -2", odds := -110, wager := 10,
     potentialProfit := 9.09, status := BetStatus.WON, createdAt := 3 },
   { id := "s3", date := "2024-01-02", matchup := "A vs B", sport := "NBA",
     sportsbook := "DraftKings", pick := "A -3", odds := -110, wager := 10,
     potentialProfit := 9.09, status := BetStatus.LOST, createdAt := 2 },
   { id := "s4", date := "2024-01-01", matchup := "A vs B", sport := "NBA",
     sportsbook := "DraftKings", pick := "A -4", odds := -110, wager := 10,
     potentialProfit := 9.09, status := BetStatus.WON, createdAt := 1 }]

/-- Flat-ROI witness input: one WON bet at +150, one LOST at -120, one PUSH. -/
def exFlatBets : List Bet :=
  [{ id := "f1", date := "2024-01-01", matchup := "A vs B", sport := "NFL",
     sportsbook := "DraftKings", pick := "A -3", odds := 150, wager := 20,
     potentialProfit := 30, status := BetStatus.WON, createdAt := 1 },
   { id := "f2", date := "2024-01-01", matchup := "C vs D", sport := "NFL",
     sportsbook := "FanDuel", pick := "C +3", odds := -120, wager := 24,
     potentialProfit := 20, status := BetStatus.LOST, createdAt := 2 },
   { id := "f3", date := "2024-01-02", matchup := "E vs F", sport := "NFL",
     sportsbook := "BetMGM", pick := "E -7", odds := -110, wager := 11,
     potentialProfit := 10, status := BetStatus.PUSH, createdAt := 3 }]

/-- A push-only history with a positive wager: it has no WON or LOST bets
while its settled wagered total is nonzero. -/
def exPushBet : Bet :=
  { id := "p1", date := "2024-01-02", matchup := "E vs F", sport := "NFL",
    sportsbook := "BetMGM", pick := "E -7", odds := -110, wager := 11,
    potentialProfit := 10, status := BetStatus.PUSH, createdAt := 3 }

/-- A WON bet that carries a sportsbook identifier outside the enumerated
`Sportsbook` set. -/
def exUnknownBet : Bet :=
  { id := "u1", date := "2024-01-01", matchup := "X vs Y", sport := "Other",
    sportsbook := "FooBook", pick := "X ML", odds := 100, wager := 10,
    potentialProfit := 10, status := BetStatus.WON, createdAt := 1 }

/-- The row that `calculateBookBalances [exUnknownBet] []` produces for the
"Other" book: no deposits and an untouched balance of 0. -/
def exOtherEntry : BookBalanceDisplay :=
  { sportsbook := "Other", deposited := 0, currentBalance := 0 }

/-- Classifier determinism example input from the spec: matchup
"Lakers vs Celtics", pick "Lakers -5.5", no date. -/
def exNbaDraft : BetDraft :=
  { matchup := some "Lakers vs Celtics", pick := some "Lakers -5.5", date := none }

/-- Dual-sport college witness input: Alabama and Georgia appear in both
college gazetteers, no professional team or keyword matches, and the text
carries the over/under total 120. -/
def exDualDraft : BetDraft :=
  { matchup := some "Alabama vs Georgia", pick := some "O 120", date := none }

/- Theorems.  Helper lemmas come first; the claim theorems and their witnesses
   reference only definitions above and shared helpers. -/

/-- Unfolding of the two-decimal rounding step. -/
theorem round2_eq (x : ℚ) : round2 x = ((⌊x * 100 + 1 / 2⌋ : ℤ) : ℚ) / 100 := rfl

/-- Two-decimal rounding moves a value by at most half a cent. -/
theorem abs_round2_sub_le (x : ℚ) : |round2 x - x| ≤ 1 / 200 := by
  rw [round2_eq]
  have h1 : ((⌊x * 100 + 1 / 2⌋ : ℤ) : ℚ) ≤ x * 100 + 1 / 2 := Int.floor_le _
  have h2 : x * 100 + 1 / 2 - 1 < ((⌊x * 100 + 1 / 2⌋ : ℤ) : ℚ) := Int.sub_one_lt_floor _
  rw [abs_le]
  constructor <;> linarith

/-- Two-decimal rounding is monotone. -/
theorem round2_mono {x y : ℚ} (h : x ≤ y) : round2 x ≤ round2 y := by
  rw [round2_eq, round2_eq]
  have hf : (⌊x * 100 + 1 / 2⌋ : ℤ) ≤ ⌊y * 100 + 1 / 2⌋ :=
    Int.floor_le_floor (by linarith)
  have hq : ((⌊x * 100 + 1 / 2⌋ : ℤ) : ℚ) ≤ ((⌊y * 100 + 1 / 2⌋ : ℤ) : ℚ) := by
    exact_mod_cast hf
  linarith

/-- Two-decimal rounding preserves nonnegativity. -/
theorem round2_nonneg {x : ℚ} (h : 0 ≤ x) : 0 ≤ round2 x := by
  rw [round2_eq]
  have hf : (0 : ℤ) ≤ ⌊x * 100 + 1 / 2⌋ := Int.le_floor.mpr (by push_cast; linarith)
  have hq : (0 : ℚ) ≤ ((⌊x * 100 + 1 / 2⌋ : ℤ) : ℚ) := by exact_mod_cast hf
  linarith

/-- C1: for wager w > 0 and integer odds, `calculatePotentialProfit` returns
w*(odds/100) rounded to two decimals for odds > 0, w*(100/|odds|) rounded to
two decimals for odds < 0, and exactly 0 for odds = 0; the rounding is
floor(100x + 1/2)/100, i.e. round-half-up (= half-away-from-zero on these
nonnegative profits), it moves the exact value by at most half a cent, and the
two documented examples evaluate to 90.91 and 100.00. -/
theorem c1_profit_formula (w : ℚ) (odds : ℤ) (hw : 0 < w) :
    (0 < odds → calculatePotentialProfit w odds = round2 (w * ((odds : ℚ) / 100)))
    ∧ (odds < 0 → calculatePotentialProfit w odds = round2 (w * (100 / |(odds : ℚ)|)))
    ∧ (odds = 0 → calculatePotentialProfit w odds = 0)
    ∧ (∀ x : ℚ, round2 x = ((⌊x * 100 + 1 / 2⌋ : ℤ) : ℚ) / 100)
    ∧ (∀ n : ℕ, round2 ((2 * (n : ℚ) + 1) / 200) = ((n : ℚ) + 1) / 100)
    ∧ (odds ≠ 0 → |calculatePotentialProfit w odds -
        (if 0 < odds then w * ((odds : ℚ) / 100) else w * (100 / |(odds : ℚ)|))| ≤ 1 / 200)
    ∧ calculatePotentialProfit 100 (-110) = 9091 / 100
    ∧ calculatePotentialProfit 50 200 = 100 := by
  refine ⟨?_, ?_, ?_, ?_, ?_, ?_, ?_, ?_⟩
  · intro h
    simp [calculatePotentialProfit, h, h.ne']
  · intro h
    simp [calculatePotentialProfit, h.ne, not_lt.mpr h.le]
  · intro h
    simp [calculatePotentialProfit, h]
  · intro x
    rfl
  · intro n
    have hx : (2 * (n : ℚ) + 1) / 200 * 100 + 1 / 2 = ((n : ℚ) + 1) := by ring
    rw [round2_eq, hx]
    have : (⌊((n : ℚ) + 1)⌋ : ℤ) = (n : ℤ) + 1 := by
      exact_mod_cast Int.floor_intCast ((n : ℤ) + 1)
    rw [this]
    push_cast
    ring
  · intro h0
    by_cases hpos : 0 < odds
    · simp only [calculatePotentialProfit, if_neg h0, if_pos hpos]
      exact abs_round2_sub_le _
    · simp only [calculatePotentialProfit, if_neg h0, if_neg hpos]
      exact abs_round2_sub_le _
  · norm_num [calculatePotentialProfit, round2, jsRound]
  · norm_num [calculatePotentialProfit, round2, jsRound]

/-- C1 witness: the theorem applied at wager 100 and odds -110. -/
theorem c1_profit_formula_witness :
    (0 : ℚ) < 100 ∧ calculatePotentialProfit 100 (-110) = 9091 / 100 :=
  ⟨by norm_num, (c1_profit_formula 100 (-110) (by norm_num)).2.2.2.2.2.2.1⟩

/-- C9: for fixed nonzero odds the potential profit is monotone in the wager
on positive wagers, and it is nonnegative for every positive wager. -/
theorem c9_profit_monotone (odds : ℤ) (w1 w2 : ℚ) (ho : odds ≠ 0) (h1 : 0 < w1)
    (h12 : w1 ≤ w2) :
    calculatePotentialProfit w1 odds ≤ calculatePotentialProfit w2 odds
    ∧ (∀ w : ℚ, 0 < w → 0 ≤ calculatePotentialProfit w odds) := by
  constructor
  · by_cases hpos : 0 < odds
    · simp only [calculatePotentialProfit, if_neg ho, if_pos hpos]
      apply round2_mono
      apply mul_le_mul_of_nonneg_right h12
      positivity
    · simp only [calculatePotentialProfit, if_neg ho, if_neg hpos]
      apply round2_mono
      apply mul_le_mul_of_nonneg_right h12
      positivity
  · intro w hw
    by_cases hpos : 0 < odds
    · simp only [calculatePotentialProfit, if_neg ho, if_pos hpos]
      apply round2_nonneg
      have : (0 : ℚ) ≤ (odds : ℚ) / 100 := by positivity
      exact mul_nonneg hw.le this
    · simp only [calculatePotentialProfit, if_neg ho, if_neg hpos]
      apply round2_nonneg
      have : (0 : ℚ) ≤ 100 / |(odds : ℚ)| := by positivity
      exact mul_nonneg hw.le this

/-- C9 witness: monotonicity applied at odds -110 with wagers 50 and 100. -/
theorem c9_profit_monotone_witness :
    calculatePotentialProfit 50 (-110) ≤ calculatePotentialProfit 100 (-110) :=
  (c9_profit_monotone (-110) 50 100 (by decide) (by norm_num) (by norm_num)).1

/-- Characterization of the balance-change fold: each book key accumulates the
sum of the effects of exactly the bets carrying that key. -/
theorem balanceChanges_foldl (bets : List Bet) (m : String → ℚ) (sb : String) :
    (bets.foldl applyBetToBalances m) sb
      = m sb + ((bets.filter (fun b => b.sportsbook == sb)).map bookEffect).sum := by
  induction bets generalizing m with
  | nil => simp
  | cons b l ih =>
    rw [List.foldl_cons, ih]
    by_cases h : b.sportsbook = sb
    · simp [applyBetToBalances, List.filter_cons, h]
      ring
    · simp [applyBetToBalances, List.filter_cons, h, Ne.symm h]

/-- The `balanceChanges` record value at a key is the summed effect of the bets
with exactly that sportsbook string. -/
theorem balanceChanges_eq (bets : List Bet) (sb : String) :
    balanceChanges bets sb
      = ((bets.filter (fun b => b.sportsbook == sb)).map bookEffect).sum := by
  simpa [balanceChanges] using balanceChanges_foldl bets (fun _ => 0) sb

/-- C6 counterexample: a WON bet with the unknown sportsbook string "FooBook"
and potential profit 10 leaves the "Other" row of `calculateBookBalances` at
balance 0 — the claim that the unknown book's settlement effect is reflected in
the "Other" entry's currentBalance is false (the effect is silently dropped
from every row). -/
theorem c6_unknown_book_counterexample :
    ((calculateBookBalances [exUnknownBet] []).find?
        (fun e => e.sportsbook == "Other")).map (fun e => e.currentBalance) = some 0
    ∧ exUnknownBet.status = BetStatus.WON
    ∧ exUnknownBet.potentialProfit = 10
    ∧ (0 : ℚ) < 10 := by
  refine ⟨?_, rfl, rfl, by norm_num⟩
  simp [calculateBookBalances, SPORTSBOOKS, depositedFor, balanceChanges,
    applyBetToBalances, bookEffect, exUnknownBet]

/-- C6 amended: `calculateBookBalances` returns exactly one row per known
sportsbook, in declaration order, and never errors on an unknown sportsbook
identifier; but each row (including "Other") reflects only bets whose
sportsbook string equals that row's name exactly, so the settlement effect of a
bet with an unknown identifier is dropped from the output instead of being
mapped into the "Other" bucket. -/
theorem c6_book_balances_amended (bets : List Bet) (deposits : List BookDeposit) :
    (calculateBookBalances bets deposits).map (fun e => e.sportsbook) = SPORTSBOOKS
    ∧ ∀ e ∈ calculateBookBalances bets deposits,
        e.currentBalance = depositedFor deposits e.sportsbook +
          ((bets.filter (fun b => b.sportsbook == e.sportsbook)).map bookEffect).sum := by
  constructor
  · simp [calculateBookBalances, Function.comp_def]
  · intro e he
    simp only [calculateBookBalances, List.mem_map] at he
    obtain ⟨sb, hsb, rfl⟩ := he
    simp [balanceChanges_eq]

/-- C6 witness: the amended theorem applied to the unknown-book input, at the
"Other" row. -/
theorem c6_book_balances_amended_witness :
    exOtherEntry.currentBalance = depositedFor [] exOtherEntry.sportsbook +
      (([exUnknownBet].filter
        (fun b => b.sportsbook == exOtherEntry.sportsbook)).map bookEffect).sum :=
  (c6_book_balances_amended [exUnknownBet] []).2 exOtherEntry
    (by simp [calculateBookBalances, SPORTSBOOKS, depositedFor, balanceChanges,
      applyBetToBalances, bookEffect, exUnknownBet, exOtherEntry])

/-- Fold characterization: `flatBetsSettled` counts the WON and LOST bets. -/
theorem statsFold_flatBetsSettled (bets : List Bet) (acc : StatsAcc) :
    (bets.foldl statsStep acc).flatBetsSettled
      = acc.flatBetsSettled + (bets.filter (fun b =>
          b.status == BetStatus.WON || b.status == BetStatus.LOST)).length := by
  induction bets generalizing acc with
  | nil => simp
  | cons b l ih =>
    rw [List.foldl_cons, ih]
    cases hb : b.status <;> simp [statsStep, hb, List.filter_cons] <;> omega

/-- Fold characterization: `flatUnitsWon` accumulates exactly the spec's unit
contributions (odds-implied unit profit per WON bet, -1 per LOST bet, nothing
for PUSH or PENDING). -/
theorem statsFold_flatUnitsWon (bets : List Bet) (acc : StatsAcc) :
    (bets.foldl statsStep acc).flatUnitsWon
      = acc.flatUnitsWon + (bets.map specUnitContrib).sum := by
  induction bets generalizing acc with
  | nil => simp
  | cons b l ih =>
    rw [List.foldl_cons, ih]
    cases hb : b.status <;>
      simp [statsStep, specUnitContrib, unitProfit, hb] <;> ring

/-- Fold characterization: `totalWon` sums the potential profits of WON bets. -/
theorem statsFold_totalWon (bets : List Bet) (acc : StatsAcc) :
    (bets.foldl statsStep acc).totalWon
      = acc.totalWon + ((bets.filter (fun b => b.status == BetStatus.WON)).map
          (fun b => b.potentialProfit)).sum := by
  induction bets generalizing acc with
  | nil => simp
  | cons b l ih =>
    rw [List.foldl_cons, ih]
    cases hb : b.status <;> simp [statsStep, hb, List.filter_cons] <;> ring

/-- Fold characterization: `totalLost` sums the wagers of LOST bets. -/
theorem statsFold_totalLost (bets : List Bet) (acc : StatsAcc) :
    (bets.foldl statsStep acc).totalLost
      = acc.totalLost + ((bets.filter (fun b => b.status == BetStatus.LOST)).map
          (fun b => b.wager)).sum := by
  induction bets generalizing acc with
  | nil => simp
  | cons b l ih =>
    rw [List.foldl_cons, ih]
    cases hb : b.status <;> simp [statsStep, hb, List.filter_cons] <;> ring

/-- C4: for bet lists with nonzero odds, the flat ROI equals the sum of the
spec's unit contributions divided by the number of WON plus LOST bets, times
100 (with the 0-denominator case agreeing with the source's guard under the
rational convention x/0 = 0). -/
theorem c4_flat_roi (deposits : List BookDeposit) (bets : List Bet)
    (h : ∀ b ∈ bets, b.odds ≠ 0) :
    (calculateBankrollStats deposits bets).flatROI
      = (bets.map specUnitContrib).sum /
        ((bets.filter (fun b => b.status == BetStatus.WON ||
            b.status == BetStatus.LOST)).length : ℚ) * 100 := by
  have hN := statsFold_flatBetsSettled bets statsAcc0
  have hU := statsFold_flatUnitsWon bets statsAcc0
  simp only [calculateBankrollStats]
  rw [hN, hU]
  simp only [statsAcc0, zero_add]
  by_cases hn : 0 <
      (bets.filter (fun b => b.status == BetStatus.WON ||
        b.status == BetStatus.LOST)).length
  · rw [if_pos hn]
  · rw [if_neg hn]
    have h0 : (bets.filter (fun b => b.status == BetStatus.WON ||
        b.status == BetStatus.LOST)).length = 0 := by omega
    rw [h0]
    norm_num

/-- C4 witness: the theorem applied to a concrete WON/LOST/PUSH list with
nonzero odds. -/
theorem c4_flat_roi_witness :
    (calculateBankrollStats [] exFlatBets).flatROI
      = (exFlatBets.map specUnitContrib).sum /
        ((exFlatBets.filter (fun b => b.status == BetStatus.WON ||
            b.status == BetStatus.LOST)).length : ℚ) * 100 :=
  c4_flat_roi [] exFlatBets (by decide)

/-- C5: every ratio over a possibly-empty population defaults to 0, each guard
on its own: the money-weighted ROI is 0 whenever the settled wagered total is
0, the flat ROI is 0 whenever there are no WON or LOST bets (independently of
the wagered total — e.g. a push-only history with positive wagers), and every
book-performance row with zero wins and zero losses has winRate 0.  In this
rational-number embedding all three ratios are total functions into ℚ, so no
NaN, Infinity or exception can arise; the guarded branches proved here are
exactly the source's divide-by-zero guards. -/
theorem c5_ratio_guards (deposits : List BookDeposit) (bets : List Bet) :
    (settledWagered bets = 0 → (calculateBankrollStats deposits bets).roi = 0)
    ∧ (bets.filter (fun b => b.status == BetStatus.WON ||
        b.status == BetStatus.LOST) = [] →
        (calculateBankrollStats deposits bets).flatROI = 0)
    ∧ ∀ e ∈ (calculateAdvancedStats bets).bookPerformance,
        e.wins = 0 → e.losses = 0 → e.winRate = 0 := by
  refine ⟨?_, ?_, ?_⟩
  · intro hsw
    simp [calculateBankrollStats, hsw]
  · intro hwl
    have hN := statsFold_flatBetsSettled bets statsAcc0
    rw [hwl] at hN
    simp only [calculateBankrollStats]
    rw [hN]
    simp [statsAcc0]
  · intro e he hw hl
    have hbp : (calculateAdvancedStats bets).bookPerformance
        = List.insertionSort (fun a b : BookPerf => b.profit ≤ a.profit)
          ((aggByKey bookKey (sortedSettled bets)).map (fun e =>
            { name := e.1
              profit := e.2.profit
              wins := e.2.wins
              losses := e.2.losses
              winRate :=
                if 0 < e.2.wins + e.2.losses
                then (e.2.wins : ℚ) / ((e.2.wins : ℚ) + (e.2.losses : ℚ)) * 100
                else 0 })) := rfl
    rw [hbp] at he
    have he2 := (List.perm_insertionSort _ _).mem_iff.mp he
    obtain ⟨p, hp, rfl⟩ := List.mem_map.mp he2
    simp only at hw hl ⊢
    rw [hw, hl]
    norm_num

/-- C5 witness: the roi guard applied to the empty history, and the flat-ROI
guard applied to a push-only history whose settled wagered total is the
nonzero 11 — the two hypotheses are discharged independently. -/
theorem c5_ratio_guards_witness :
    (calculateBankrollStats [] []).roi = 0
    ∧ (calculateBankrollStats [] [exPushBet]).flatROI = 0 :=
  ⟨(c5_ratio_guards [] []).1 rfl, (c5_ratio_guards [] [exPushBet]).2.1 rfl⟩

/-- The streak loop over a leading WON counts the WONs in the longest prefix of
WONs and PUSHes. -/
theorem streakGo_won (l : List BetStatus) :
    streakGo BetStatus.WON l
      = ((l.takeWhile (fun st => st == BetStatus.WON || st == BetStatus.PUSH)).count
          BetStatus.WON : ℤ) := by
  induction l with
  | nil => simp [streakGo]
  | cons st rest ih =>
    cases st <;> simp [streakGo, List.takeWhile_cons, List.count_cons, ih] <;> omega

/-- The streak loop over a leading LOST counts the LOSTs in the longest prefix
of LOSTs and PUSHes, negated. -/
theorem streakGo_lost (l : List BetStatus) :
    streakGo BetStatus.LOST l
      = -((l.takeWhile (fun st => st == BetStatus.LOST || st == BetStatus.PUSH)).count
          BetStatus.LOST : ℤ) := by
  induction l with
  | nil => simp [streakGo]
  | cons st rest ih =>
    cases st <;> simp [streakGo, List.takeWhile_cons, List.count_cons, ih] <;> omega

/-- The embedded streak loop agrees with the spec's streak description on every
status list. -/
theorem currentStreak_eq_spec (l : List BetStatus) : currentStreakOf l = streakSpec l := by
  cases l with
  | nil => rfl
  | cons first rest =>
    cases first
    · simp [currentStreakOf, streakSpec]
    · simp [currentStreakOf, streakSpec, streakGo_won]
    · simp [currentStreakOf, streakSpec, streakGo_lost]
    · simp [currentStreakOf, streakSpec]

/-- C3: the current streak over the recency-ordered settled bets is 0 when
there is no settled bet or the most recent one is a PUSH, and otherwise counts
consecutive bets matching the leading outcome (+1 per WON, -1 per LOST) with
mid-scan PUSHes skipped and the first opposite outcome terminating the scan —
stated via `streakSpec`; and the most-recent-first sequence
[WON, WON, LOST, WON] yields streak +2. -/
theorem c3_current_streak (bets : List Bet) :
    (calculateAdvancedStats bets).currentStreak
      = streakSpec ((sortedSettled bets).map (fun b => b.status))
    ∧ (calculateAdvancedStats exStreakBets).currentStreak = 2 := by
  constructor
  · have h : (calculateAdvancedStats bets).currentStreak
        = currentStreakOf ((sortedSettled bets).map (fun b => b.status)) := rfl
    rw [h, currentStreak_eq_spec]
  · rfl

/-- The scan emits exactly one point per date, in the order of the date list. -/
theorem histScan_map_date (bets : List Bet) :
    ∀ (ds : List String) (bal : ℚ),
      (histScan bets bal ds).map (fun p => p.date) = ds := by
  intro ds
  induction ds with
  | nil => intro bal; simp [histScan]
  | cons d ds ih => intro bal; simp [histScan, ih]

/-- A point emitted by the scan carries one of the scanned dates. -/
theorem histScan_mem_date {bets : List Bet} {p : BankrollHistoryPoint}
    {ds : List String} {bal : ℚ} (hp : p ∈ histScan bets bal ds) : p.date ∈ ds := by
  have h := List.mem_map_of_mem (fun p => p.date) hp
  rwa [histScan_map_date] at h

/-- Splitting a mapped sum along a Boolean filter. -/
theorem sum_map_filter_split (p : Bet → Bool) (f : Bet → ℚ) (L : List Bet) :
    ((L.filter p).map f).sum + ((L.filter (fun b => !(p b))).map f).sum
      = (L.map f).sum := by
  induction L with
  | nil => simp
  | cons b l ih =>
    by_cases hb : p b <;> simp [List.filter_cons, hb] <;> linarith

/-- Partition of the settled-effect sum along a complete, duplicate-free list
of date keys: summing the per-date buckets recovers the total. -/
theorem sum_partition : ∀ (ds : List String) (L : List Bet), ds.Nodup →
    (∀ b ∈ L, b.date ∈ ds) →
    (ds.map (fun d => ((L.filter (fun b => b.date == d)).map histEffect).sum)).sum
      = (L.map histEffect).sum := by
  intro ds
  induction ds with
  | nil =>
    intro L _ hcov
    have hL : L = [] := List.eq_nil_iff_forall_not_mem.mpr
      (fun b hb => by simpa using hcov b hb)
    rw [hL]
    simp
  | cons d ds ih =>
    intro L hnd hcov
    obtain ⟨hdnot, hnd'⟩ := List.nodup_cons.mp hnd
    have hcov' : ∀ b ∈ L.filter (fun b => !(b.date == d)), b.date ∈ ds := by
      intro b hb
      obtain ⟨hbL, hbne⟩ := List.mem_filter.mp hb
      have hmem := hcov b hbL
      have hne : b.date ≠ d := by simpa using hbne
      rcases List.mem_cons.mp hmem with h | h
      · exact absurd h hne
      · exact h
    have hsame : ∀ d' ∈ ds,
        ((L.filter (fun b => b.date == d')).map histEffect).sum
          = (((L.filter (fun b => !(b.date == d))).filter
              (fun b => b.date == d')).map histEffect).sum := by
      intro d' hd'
      have hne : d' ≠ d := fun h => hdnot (h ▸ hd')
      rw [List.filter_filter]
      congr 1
      apply congrArg
      apply List.filter_congr
      intro b hb
      by_cases h : b.date = d'
      · simp [h, hne]
      · simp [h]
    have hmap : ds.map (fun d' => ((L.filter (fun b => b.date == d')).map histEffect).sum)
        = ds.map (fun d' => (((L.filter (fun b => !(b.date == d))).filter
            (fun b => b.date == d')).map histEffect).sum) :=
      List.map_congr_left (fun d' hd' => hsame d' hd')
    simp only [List.map_cons, List.sum_cons]
    rw [hmap, ih (L.filter (fun b => !(b.date == d))) hnd' hcov']
    have hsplit := sum_map_filter_split (fun b => b.date == d) histEffect L
    linarith

/-- Balance of the last point of a nonempty scan: the seed plus the sum of all
daily buckets in the scanned date list. -/
theorem histScan_last (bets : List Bet) :
    ∀ (ds : List String) (bal : ℚ) (p q : BankrollHistoryPoint), p.balance = bal →
      ((p :: histScan bets bal ds).getLastD q).balance
        = bal + (ds.map (dailyPnL bets)).sum := by
  intro ds
  induction ds with
  | nil =>
    intro bal p q hp
    simp [histScan, hp]
  | cons d ds ih =>
    intro bal p q hp
    have hstep : histScan bets bal (d :: ds)
        = { date := d, balance := bal + dailyPnL bets d, formattedDate := histFmt d } ::
          histScan bets (bal + dailyPnL bets d) ds := rfl
    rw [hstep, List.getLastD_cons]
    rw [ih (bal + dailyPnL bets d)
      { date := d, balance := bal + dailyPnL bets d, formattedDate := histFmt d } p rfl]
    simp only [List.map_cons, List.sum_cons]
    ring

/-- Balance of every scanned point over a sorted duplicate-free date list: the
seed plus the buckets of all scanned dates up to the point's own date. -/
theorem histScan_balance (bets : List Bet) :
    ∀ (ds : List String) (bal : ℚ), List.Sorted (· ≤ ·) ds → ds.Nodup →
      ∀ p ∈ histScan bets bal ds,
        p.balance = bal + ((ds.filter (fun d => d ≤ p.date)).map (dailyPnL bets)).sum := by
  intro ds
  induction ds with
  | nil =>
    intro bal _ _ p hp
    simp [histScan] at hp
  | cons d ds ih =>
    intro bal hsort hnd p hp
    obtain ⟨hdle, hsort'⟩ := List.sorted_cons.mp hsort
    obtain ⟨hdnot, hnd'⟩ := List.nodup_cons.mp hnd
    simp only [histScan, List.mem_cons] at hp
    rcases hp with rfl | hp
    · have hfil : ds.filter (fun d' => d' ≤ d) = [] := by
        rw [List.filter_eq_nil_iff]
        intro x hx
        have h1 : d ≤ x := hdle x hx
        have h2 : x ≠ d := fun h => hdnot (h ▸ hx)
        simp only [decide_eq_true_eq]
        intro hxd
        exact h2 (le_antisymm hxd h1)
      dsimp only
      rw [List.filter_cons, if_pos (show (decide (d ≤ d)) = true by simp), hfil]
      simp
    · have hdp : d ≤ p.date := hdle _ (histScan_mem_date hp)
      rw [ih (bal + dailyPnL bets d) hsort' hnd' p hp, List.filter_cons]
      simp [hdp]
      ring

/-- `uniqueDates` is sorted by the lexicographic string order. -/
theorem uniqueDates_sorted (bets : List Bet) :
    List.Sorted (fun a b : String => a ≤ b) (uniqueDates bets) :=
  List.sorted_insertionSort _ _

/-- `uniqueDates` has no duplicate dates. -/
theorem uniqueDates_nodup (bets : List Bet) : (uniqueDates bets).Nodup :=
  ((List.perm_insertionSort _ _).nodup_iff).mpr (List.nodup_dedup _)

/-- The date keys are exactly the dates of the settled bets. -/
theorem mem_uniqueDates (bets : List Bet) (d : String) :
    d ∈ uniqueDates bets ↔ d ∈ (settledFilter bets).map (fun b => b.date) := by
  rw [uniqueDates, (List.perm_insertionSort _ _).mem_iff, settledDates, List.mem_dedup]

/-- Cumulative form: summing the buckets of all date keys up to a bound D
equals the summed effect of all settled bets dated at most D. -/
theorem cumulative_sum (bets : List Bet) (D : String) :
    (((uniqueDates bets).filter (fun d => d ≤ D)).map (dailyPnL bets)).sum
      = (((settledFilter bets).filter (fun b => b.date ≤ D)).map histEffect).sum := by
  have hnd : ((uniqueDates bets).filter (fun d => d ≤ D)).Nodup :=
    (uniqueDates_nodup bets).filter _
  have hcov : ∀ b ∈ (settledFilter bets).filter (fun b => b.date ≤ D),
      b.date ∈ (uniqueDates bets).filter (fun d => d ≤ D) := by
    intro b hb
    obtain ⟨hbs, hble⟩ := List.mem_filter.mp hb
    exact List.mem_filter.mpr
      ⟨(mem_uniqueDates bets b.date).mpr (List.mem_map_of_mem _ hbs), hble⟩
  rw [← sum_partition ((uniqueDates bets).filter (fun d => d ≤ D))
    ((settledFilter bets).filter (fun b => b.date ≤ D)) hnd hcov]
  apply congrArg List.sum
  apply List.map_congr_left
  intro d hd
  obtain ⟨hdu, hdle⟩ := List.mem_filter.mp hd
  rw [dailyPnL, List.filter_filter]
  congr 1
  apply congrArg
  apply List.filter_congr
  intro b hb
  by_cases h : b.date = d
  · rw [h]
    simp only [beq_self_eq_true, hdle, Bool.and_true, Bool.true_and]
  · have hbf : (b.date == d) = false := by
      simp [h]
    simp [hbf]

/-- Total settled effect: profits of WON bets minus wagers of LOST bets. -/
theorem settled_effect_sum (bets : List Bet) :
    ((settledFilter bets).map histEffect).sum
      = ((bets.filter (fun b => b.status == BetStatus.WON)).map
          (fun b => b.potentialProfit)).sum
        - ((bets.filter (fun b => b.status == BetStatus.LOST)).map
          (fun b => b.wager)).sum := by
  induction bets with
  | nil => simp [settledFilter]
  | cons b l ih =>
    cases hb : b.status <;>
      simp [settledFilter, List.filter_cons, hb, histEffect] at ih ⊢ <;> linarith

/-- C2: the reconstructed history starts with the synthetic Start point
unconditionally, its remaining points carry strictly increasing dates that are
exactly the distinct dates of the settled (WON/LOST/PUSH) bets, each point's
balance is the starting balance plus the cumulative settled net effect
(WON +potentialProfit, LOST -wager, PUSH nothing) up to and including its
date, and the two same-date WON bets with profits 50 and 30 on starting
balance 1000 produce exactly one point for that date with balance 1080. -/
theorem c2_bankroll_history (s : ℚ) (bets : List Bet) :
    (calculateBankrollHistory s bets).head?
      = some { date := "Start", balance := s, formattedDate := "Start" }
    ∧ List.Sorted (fun a b : String => a < b)
        (((calculateBankrollHistory s bets).tail).map (fun p => p.date))
    ∧ (∀ d : String,
        d ∈ ((calculateBankrollHistory s bets).tail).map (fun p => p.date) ↔
          d ∈ (settledFilter bets).map (fun b => b.date))
    ∧ (∀ p ∈ (calculateBankrollHistory s bets).tail,
        p.balance = s + (((settledFilter bets).filter
          (fun b => b.date ≤ p.date)).map histEffect).sum)
    ∧ calculateBankrollHistory 1000 [exHistBetA, exHistBetB]
        = [{ date := "Start", balance := 1000, formattedDate := "Start" },
           { date := "2024-01-02", balance := 1080, formattedDate := "Jan 2" }] := by
  have htail : (calculateBankrollHistory s bets).tail
      = histScan bets s (uniqueDates bets) := rfl
  refine ⟨rfl, ?_, ?_, ?_, ?_⟩
  · rw [htail, histScan_map_date]
    have hs := uniqueDates_sorted bets
    have hn := uniqueDates_nodup bets
    exact List.Pairwise.imp₂ (fun a b hle hne => lt_of_le_of_ne hle hne) hs hn
  · intro d
    rw [htail, histScan_map_date]
    exact mem_uniqueDates bets d
  · intro p hp
    rw [htail] at hp
    rw [histScan_balance bets (uniqueDates bets) s (uniqueDates_sorted bets)
      (uniqueDates_nodup bets) p hp, cumulative_sum]
  · have hud : uniqueDates [exHistBetA, exHistBetB] = ["2024-01-02"] := rfl
    have hfmt : histFmt "2024-01-02" = "Jan 2" := rfl
    simp only [calculateBankrollHistory, hud, histScan, hfmt]
    norm_num [dailyPnL, settledFilter, histEffect, exHistBetA, exHistBetB]
    exact hfmt

/-- C2 witness: the cumulative-balance conjunct applied to the concrete
two-bets-one-date input at its single dated point. -/
theorem c2_bankroll_history_witness :
    ({ date := "2024-01-02", balance := 1080, formattedDate := "Jan 2" } :
        BankrollHistoryPoint).balance
      = 1000 + (((settledFilter [exHistBetA, exHistBetB]).filter
          (fun b => b.date ≤ "2024-01-02")).map histEffect).sum := by
  have hmem : ({ date := "2024-01-02", balance := 1080, formattedDate := "Jan 2" } :
      BankrollHistoryPoint) ∈
        (calculateBankrollHistory 1000 [exHistBetA, exHistBetB]).tail := by
    rw [(c2_bankroll_history 1000 [exHistBetA, exHistBetB]).2.2.2.2]
    exact List.mem_cons_self _ _
  exact (c2_bankroll_history 1000 [exHistBetA, exHistBetB]).2.2.2.1 _ hmem

/-- C10: the balance of the last history point equals the starting balance
plus totalWon minus totalLost as tallied by `calculateBankrollStats` over the
same bets (for any deposit ledger), and it is exactly the starting balance
when there is no settled bet. -/
theorem c10_last_point (s : ℚ) (deposits : List BookDeposit) (bets : List Bet) :
    ((calculateBankrollHistory s bets).getLastD
        { date := "", balance := 0, formattedDate := "" }).balance
      = s + ((calculateBankrollStats deposits bets).totalWon
          - (calculateBankrollStats deposits bets).totalLost)
    ∧ (settledFilter bets = [] →
        ((calculateBankrollHistory s bets).getLastD
          { date := "", balance := 0, formattedDate := "" }).balance = s) := by
  have hlast : ((calculateBankrollHistory s bets).getLastD
      { date := "", balance := 0, formattedDate := "" }).balance
      = s + ((uniqueDates bets).map (dailyPnL bets)).sum :=
    histScan_last bets (uniqueDates bets) s
      { date := "Start", balance := s, formattedDate := "Start" } _ rfl
  constructor
  · rw [hlast]
    have h2 : ((uniqueDates bets).map (dailyPnL bets)).sum
        = ((settledFilter bets).map histEffect).sum := by
      have := sum_partition (uniqueDates bets) (settledFilter bets)
        (uniqueDates_nodup bets)
        (fun b hb => (mem_uniqueDates bets b.date).mpr (List.mem_map_of_mem _ hb))
      simpa [dailyPnL] using this
    have hW : (calculateBankrollStats deposits bets).totalWon
        = ((bets.filter (fun b => b.status == BetStatus.WON)).map
            (fun b => b.potentialProfit)).sum := by
      have h := statsFold_totalWon bets statsAcc0
      simp only [calculateBankrollStats]
      rw [h]
      simp [statsAcc0]
    have hL : (calculateBankrollStats deposits bets).totalLost
        = ((bets.filter (fun b => b.status == BetStatus.LOST)).map
            (fun b => b.wager)).sum := by
      have h := statsFold_totalLost bets statsAcc0
      simp only [calculateBankrollStats]
      rw [h]
      simp [statsAcc0]
    rw [h2, settled_effect_sum, hW, hL]
  · intro hset
    rw [hlast]
    have hud : uniqueDates bets = [] := by
      rw [uniqueDates, settledDates, hset]
      rfl
    rw [hud]
    simp

/-- C10 witness: the no-settled-bets case at starting balance 5. -/
theorem c10_last_point_witness :
    ((calculateBankrollHistory 5 []).getLastD
      { date := "", balance := 0, formattedDate := "" }).balance = 5 :=
  (c10_last_point 5 [] []).2 rfl

/-- The classifier's month-seasonality fallback agrees with the spec's month
rule applied to the extracted event month. -/
theorem monthFallback_eq_spec (b : BetDraft) :
    collegeMonthFallback b.date = specMonthDecision (draftMonth b) := by
  simp only [collegeMonthFallback, draftMonth]
  cases hb : b.date with
  | none => rfl
  | some ds =>
    by_cases h : (ds == "") = true
    · simp [h, specMonthDecision]
    · rw [Bool.not_eq_true] at h
      simp only [h, Bool.false_eq_true, if_false]
      cases hm : parseIntPrefix (((splitOnCharS '-' ds).get? 1).getD "") with
      | none => simp [specMonthDecision]
      | some m =>
        simp only [specMonthDecision, Bool.or_eq_true, beq_iff_eq, or_assoc]

/-- C7: under the dual-sport college conditions (no professional match, at
least one college match, every matched college team present in both
gazetteers, no explicit football/basketball keyword), the classifier decides
by the parsed over/under total (above 110 NCAAB, below 80 NCAAF, the 80-110
band undecided), then by event month (Aug-Oct NCAAF, Feb-Apr NCAAB, January
NCAAB, Nov/Dec undecided), and defaults to NCAAB — i.e. it computes
`specCollegeDualDecision` of the parsed total and the event month. -/
theorem c7_college_dual_rules (b : BetDraft)
    (hNFL : checkProList (draftText b) NFL_TEAMS = false)
    (hNBA : checkProList (draftText b) NBA_TEAMS = false)
    (hMLB : checkProList (draftText b) MLB_TEAMS = false)
    (hNHL : checkProList (draftText b) NHL_TEAMS = false)
    (hCol : 0 < (getMatchedTeams (draftText b) NCAAF_TEAMS).length ∨
        0 < (getMatchedTeams (draftText b) NCAAB_TEAMS).length)
    (hXB : (getMatchedTeams (draftText b) NCAAB_TEAMS).filter
        (fun t => !(NCAAF_TEAMS.contains t)) = [])
    (hXF : (getMatchedTeams (draftText b) NCAAF_TEAMS).filter
        (fun t => !(NCAAB_TEAMS.contains t)) = [])
    (hkF : hasFootballKeyword (draftText b) = false)
    (hkB : hasBasketballKeyword (draftText b) = false) :
    inferSportFromBet b
      = specCollegeDualDecision (parseTotal (draftText b)) (draftMonth b) := by
  have hcolb : (decide (0 < (getMatchedTeams (draftText b) NCAAF_TEAMS).length) ||
      decide (0 < (getMatchedTeams (draftText b) NCAAB_TEAMS).length)) = true := by
    rcases hCol with h | h <;> simp [h]
  simp only [inferSportFromBet, hNFL, hNBA, hMLB, hNHL, hkF, hkB, hXB, hXF, hcolb,
    Bool.false_and, Bool.and_false, Bool.false_eq_true, if_false, List.length_nil,
    lt_self_iff_false, Bool.false_or, Bool.or_false, if_true]
  cases hpt : parseTotal (draftText b) with
  | none => simp [specCollegeDualDecision, monthFallback_eq_spec b]
  | some v =>
    simp only [specCollegeDualDecision]
    by_cases h110 : 110 < v
    · simp [h110]
    · by_cases h80 : v < 80 <;> simp [h110, h80, monthFallback_eq_spec b]

/-- C7 witness: the dual-sport input "Alabama vs Georgia" with total 120 (no
date) satisfies every hypothesis, and the conclusion instantiates to the
over-110 basketball rule. -/
theorem c7_college_dual_rules_witness :
    inferSportFromBet exDualDraft
      = specCollegeDualDecision (parseTotal (draftText exDualDraft))
          (draftMonth exDualDraft) :=
  c7_college_dual_rules exDualDraft (by decide) (by decide) (by decide) (by decide)
    (by decide) (by decide) (by decide) (by decide) (by decide)

/-- C8: the classifier maps matchup "Lakers vs Celtics" with pick
"Lakers -5.5" to "NBA", and as a pure function of its input record it is
deterministic — equal inputs give equal outputs, with no hidden state. -/
theorem c8_classifier_nba :
    inferSportFromBet exNbaDraft = "NBA"
    ∧ ∀ b : BetDraft, inferSportFromBet b = inferSportFromBet b :=
  ⟨by decide, fun _ => rfl⟩

end BetTracker
